import Mathlib

/- Shallow embedding of the signature-normalization utility
   (src/utils/lazor-patch.ts) and of the patched wallet hook
   (src/hooks/usePatchedWallet.ts) of the lazorpay repository.

   Modelling conventions:
   - Uint8Array is List Nat (a 64-byte signature is a list of length 64
     whose entries are byte values).
   - JavaScript BigInt is Int.  For a positive divisor, the JavaScript
     operators on BigInt used by the source, namely arithmetic right
     shift by 8 and bitwise AND with 0xff, are floor division by 256 and
     the nonnegative remainder modulo 256, which on Int are the builtin
     division and modulo (Euclidean convention). -/

set_option maxRecDepth 20000

-- ===========================================================================
-- lazor-patch.ts: curve constants and byte conversions
-- ===========================================================================

/-- CURVE_ORDER from lazor-patch.ts: the secp256r1 (P-256) curve order n. -/
def CURVE_ORDER : Nat :=
  0xFFFFFFFF00000000FFFFFFFFFFFFFFFFBCE6FAADA7179E84F3B9CAC2FC632551

/-- HALF_CURVE_ORDER from lazor-patch.ts: the curve order divided by two
    (BigInt division truncates, which agrees with Nat division). -/
def HALF_CURVE_ORDER : Nat := CURVE_ORDER / 2

/-- bytesToBigInt from lazor-patch.ts: big-endian interpretation of a byte
    list, folding result = (result << 8) + byte over the list. -/
def bytesToBigInt (bytes : List Nat) : Nat :=
  bytes.foldl (fun result b => result * 256 + b) 0

/-- bigIntToBytes from lazor-patch.ts: writes the low byte of the value at
    the last index, then shifts right by 8 and moves one index to the left.
    The value is Int because normalizeSignature can call this with a
    negative BigInt; the JavaScript bitwise operations then see the
    twos-complement form, i.e. floor division and nonnegative remainder. -/
def bigIntToBytes (value : Int) (length : Nat) : List Nat :=
  match length with
  | 0 => []
  | n + 1 => bigIntToBytes (value / 256) n ++ [(value % 256).toNat]

/-- normalizeSignature from lazor-patch.ts: on a 64-byte input, splits it
    into r (bytes 0 to 31) and s (bytes 32 to 63); if the decoded s exceeds
    half the curve order it re-encodes CURVE_ORDER - s over the same r,
    otherwise (and for any input whose length is not 64) it returns the
    input unchanged. -/
def normalizeSignature (signature : List Nat) : List Nat :=
  if signature.length ≠ 64 then signature
  else
    let r := signature.take 32
    let s := signature.drop 32
    let sBigInt := bytesToBigInt s
    if HALF_CURVE_ORDER < sBigInt then
      let lowS : Int := (CURVE_ORDER : Int) - (sBigInt : Int)
      let lowSBytes := bigIntToBytes lowS 32
      r ++ lowSBytes
    else signature

/-- isHighS from lazor-patch.ts: false for inputs whose length is not 64,
    otherwise whether the decoded s exceeds half the curve order. -/
def isHighS (signature : List Nat) : Bool :=
  if signature.length ≠ 64 then false
  else decide (HALF_CURVE_ORDER < bytesToBigInt (signature.drop 32))

/-- isValidLowS from lazor-patch.ts: true exactly for 64-byte inputs whose
    decoded s satisfies 0 < s and s is at most half the curve order. -/
def isValidLowS (signature : List Nat) : Bool :=
  if signature.length ≠ 64 then false
  else
    let sBigInt := bytesToBigInt (signature.drop 32)
    decide (0 < sBigInt) && decide (sBigInt ≤ HALF_CURVE_ORDER)

-- ===========================================================================
-- usePatchedWallet.ts: rate limit classification
-- ===========================================================================

/-- Lower-casing, modelling String.prototype.toLowerCase via the ASCII case
    map (every marker the hook compares against is ASCII). -/
def lowerString (s : String) : String := String.mk (s.data.map Char.toLower)

/-- Substring search over character lists, modelling
    String.prototype.includes. -/
def containsSub (hay pat : List Char) : Bool :=
  match hay with
  | [] => pat.isEmpty
  | _ :: rest => pat.isPrefixOf hay || containsSub rest pat

/-- Substring test on strings. -/
def includesMarker (s pat : String) : Bool := containsSub s.data pat.data

/-- The first rate limit marker of is429Error. -/
def MARKER_429 : String := "429"

/-- The second rate limit marker of is429Error. -/
def MARKER_RATE_LIMIT : String := "rate limit"

/-- The third rate limit marker of is429Error. -/
def MARKER_TOO_MANY : String := "too many requests"

/-- The fourth rate limit marker of is429Error. -/
def MARKER_THROTTL : String := "throttl"

/-- The message test inside is429Error from usePatchedWallet.ts: the lower
    cased message is searched for the four markers. -/
def is429Message (m : String) : Bool :=
  let msg := lowerString m
  includesMarker msg MARKER_429 || includesMarker msg MARKER_RATE_LIMIT ||
    includesMarker msg MARKER_TOO_MANY || includesMarker msg MARKER_THROTTL

/-- A JavaScript rejection value as the hook distinguishes them: an Error
    instance carrying a message, or any other value carrying the text of
    its String conversion. -/
inductive JsErrorVal where
  | errObj (message : String)
  | nonError (strForm : String)

/-- is429Error from usePatchedWallet.ts: only an Error instance can be
    classified as a rate limit condition; any other value returns false. -/
def is429Error : JsErrorVal → Bool
  | .errObj m => is429Message m
  | .nonError _ => false

-- ===========================================================================
-- usePatchedWallet.ts: response shapes and signature extraction
-- ===========================================================================

/-- A JSON-shaped JavaScript value, the space of success results of the
    wrapped signAndSendTransaction call (numbers are modelled as integers,
    the only numerals relevant to the extraction logic). -/
inductive JsonValue where
  | jstr (s : String)
  | jnum (n : Int)
  | jbool (b : Bool)
  | jnull
  | jarr (elems : List JsonValue)
  | jobj (fields : List (String × JsonValue))

/-- One lower case hexadecimal digit, for JSON control character escapes. -/
def hexDigit (n : Nat) : String :=
  if n < 10 then String.singleton (Char.ofNat (48 + n))
  else String.singleton (Char.ofNat (87 + n))

/-- JSON.stringify escaping of a single character inside a string. -/
def escapeJsonChar (c : Char) : String :=
  if c = '\x22' then "\x5c\x22"
  else if c = '\x5c' then "\x5c\x5c"
  else if c = '\x08' then "\x5cb"
  else if c = '\x0c' then "\x5cf"
  else if c = '\x0a' then "\x5cn"
  else if c = '\x0d' then "\x5cr"
  else if c = '\x09' then "\x5ct"
  else if c.toNat < 32 then "\x5cu00" ++ hexDigit (c.toNat / 16) ++ hexDigit (c.toNat % 16)
  else String.singleton c

/-- JSON.stringify rendering of a string: quoted and escaped. -/
def quoteJson (s : String) : String :=
  "\x22" ++ String.join (s.data.map escapeJsonChar) ++ "\x22"

mutual

/-- JSON.stringify as the extraction fallback uses it: strings quoted and
    escaped, numbers in decimal, objects and arrays rendered without
    spacing. -/
def jsonStringify : JsonValue → String
  | .jstr s => quoteJson s
  | .jnum n => toString n
  | .jbool b => if b then "true" else "false"
  | .jnull => "null"
  | .jarr elems => "[" ++ jsonStringifyList elems ++ "]"
  | .jobj fields => "\x7b" ++ jsonStringifyFields fields ++ "\x7d"

/-- Comma separated rendering of array elements. -/
def jsonStringifyList : List JsonValue → String
  | [] => ""
  | [v] => jsonStringify v
  | v :: rest => jsonStringify v ++ "," ++ jsonStringifyList rest

/-- Comma separated rendering of object fields. -/
def jsonStringifyFields : List (String × JsonValue) → String
  | [] => ""
  | [(k, v)] => quoteJson k ++ ":" ++ jsonStringify v
  | (k, v) :: rest => quoteJson k ++ ":" ++ jsonStringify v ++ "," ++ jsonStringifyFields rest

end

/-- Membership in the character class of the extraction regex: digits 1 to
    9, uppercase letters without I and O, lowercase letters without l. -/
def isBase58Char (c : Char) : Bool :=
  (('1' ≤ c) && (c ≤ '9')) || (('A' ≤ c) && (c ≤ 'H')) ||
    (('J' ≤ c) && (c ≤ 'N')) || (('P' ≤ c) && (c ≤ 'Z')) ||
    (('a' ≤ c) && (c ≤ 'k')) || (('m' ≤ c) && (c ≤ 'z'))

/-- Length of the maximal base58 run starting at the head of the list. -/
def base58RunLen : List Char → Nat
  | [] => 0
  | c :: rest => if isBase58Char c then base58RunLen rest + 1 else 0

/-- First match of the regex for a base58 token of length 87 or 88: the
    leftmost position admitting a base58 run of at least 87 characters
    wins, and the match is greedy up to 88 characters. -/
def firstBase58MatchAux : List Char → Option (List Char)
  | [] => none
  | c :: rest =>
    let run := base58RunLen (c :: rest)
    if 87 ≤ run then some ((c :: rest).take (min run 88))
    else firstBase58MatchAux rest

/-- First base58 token of length 87 or 88 in a string, as the regex match
    in patchedSignAndSendTransaction finds it. -/
def firstBase58Match (s : String) : Option String :=
  (firstBase58MatchAux s.data).map String.mk

/-- Field lookup on an object literal (the first binding wins; JavaScript
    object literals carry distinct keys). -/
def lookupField (fields : List (String × JsonValue)) (key : String) :
    Option JsonValue :=
  match fields with
  | [] => none
  | (k, v) :: rest => if k = key then some v else lookupField rest key

/-- The key of the single signature field probed by the extraction. -/
def signatureKey : String := "signature"

/-- The key of the signatures list field probed by the extraction. -/
def signaturesKey : String := "signatures"

/-- The Error message thrown when no extraction rule applies. -/
def couldNotExtractMsg : String := "Could not extract signature from result"

/-- The Error message thrown for a number result. -/
def unexpectedNumberMsg : String := "Unexpected result type: number"

/-- The Error message thrown for a boolean result. -/
def unexpectedBooleanMsg : String := "Unexpected result type: boolean"

/-- The Error message thrown for a null result (typeof null is object, but
    null fails the truthiness guard). -/
def unexpectedObjectMsg : String := "Unexpected result type: object"

/-- The serialize-and-scan fallback of the extraction: the first base58
    token of length 87 or 88 in the serialization, if any. -/
def regexFallback (serialized : String) : Except String JsonValue :=
  match firstBase58Match serialized with
  | some m => .ok (.jstr m)
  | none => .error couldNotExtractMsg

/-- The signature extraction of patchedSignAndSendTransaction, transcribed
    from the body of the try block: a plain string is used directly; an
    object with a string valued signature field yields that field; an
    object with a non-empty signatures array yields its last element (the
    source casts without checking element types, so the value is returned
    as is); otherwise the JSON serialization is scanned for a base58 token
    of length 87 or 88; arrays take the scan path because typeof of an
    array is object; a number, boolean or null throws the unexpected
    result type Error.  The Except error is the thrown Error message. -/
def extractSignature : JsonValue → Except String JsonValue
  | .jstr s => .ok (.jstr s)
  | .jobj fields =>
    match lookupField fields signatureKey with
    | some (.jstr s) => .ok (.jstr s)
    | _ =>
      match lookupField fields signaturesKey with
      | some (.jarr sigs) =>
        match sigs.getLast? with
        | some v => .ok v
        | none => regexFallback (jsonStringify (.jobj fields))
      | _ => regexFallback (jsonStringify (.jobj fields))
  | .jarr elems => regexFallback (jsonStringify (.jarr elems))
  | .jnum _ => .error unexpectedNumberMsg
  | .jbool _ => .error unexpectedBooleanMsg
  | .jnull => .error unexpectedObjectMsg

-- ===========================================================================
-- usePatchedWallet.ts: the retry loop of patchedSignAndSendTransaction
-- ===========================================================================

/-- One settlement of the raced pair of wrapped operation and timeout
    timer: a resolve with a JSON-shaped value, or a rejection.  A fired
    timeout appears as a rejection whose Error carries the timeout text. -/
inductive Outcome where
  | resolve (v : JsonValue)
  | reject (e : JsErrorVal)

/-- MAX_RETRIES from patchedSignAndSendTransaction. -/
def MAX_RETRIES : Nat := 3

/-- BASE_DELAY_MS from patchedSignAndSendTransaction. -/
def BASE_DELAY_MS : Nat := 2000

/-- What one iteration of the try block produces: a resolved value passes
    through extraction, whose thrown Error, on failure, is the value the
    catch receives; a rejection is caught as is. -/
def attemptResult : Outcome → Except JsErrorVal JsonValue
  | .resolve v =>
    match extractSignature v with
    | .ok s => .ok s
    | .error m => .error (.errObj m)
  | .reject e => .error e

/-- The message of the Error stored into lastError by the catch block: the
    rejection itself when it is an Error instance, otherwise a fresh Error
    over the string form of the value. -/
def toStoredError : JsErrorVal → String
  | .errObj m => m
  | .nonError s => s

/-- The fallback text used when lastError carries no usable message. -/
def defaultFailMsg : String := "Transaction failed after all retries"

/-- The re-wrapped rate limit Error message built after exhausted retries,
    naming the underlying cause. -/
def rateLimitWrapMsg (orig : String) : String :=
  "LazorKit paymaster is rate limiting requests (429). " ++
    "This is a temporary infrastructure issue. " ++
    "Please wait 30-60 seconds and try again. " ++
    "Original error: " ++ orig

/-- The throw after the loop: when lastError is itself classified as a
    rate limit error it is re-wrapped (an empty message falls back to the
    default text, modelling the JavaScript or-else on the message), and
    otherwise lastError is thrown unchanged; with no lastError a fresh
    Error over the default text is thrown. -/
def finalThrow (lastError : Option String) : String :=
  match lastError with
  | some m =>
    if is429Message m then
      rateLimitWrapMsg (if m = "" then defaultFailMsg else m)
    else m
  | none => defaultFailMsg

/-- The retry loop of patchedSignAndSendTransaction, recursing on the
    number of attempts still allowed.  The result records how many times
    the wrapped operation was invoked, the backoff delays slept in order,
    and either the extracted signature value or the message of the Error
    finally thrown. -/
def runAttempts (op : Nat → Outcome) :
    Nat → Nat → Option String → Nat × List Nat × Except String JsonValue
  | 0, _, lastError => (0, [], .error (finalThrow lastError))
  | fuel + 1, attempt, _ =>
    match attemptResult (op attempt) with
    | .ok v => (1, [], .ok v)
    | .error e =>
      let stored := toStoredError e
      if is429Error e && decide (attempt < MAX_RETRIES) then
        let d := BASE_DELAY_MS * 2 ^ (attempt - 1)
        let rest := runAttempts op fuel (attempt + 1) (some stored)
        (rest.1 + 1, d :: rest.2.1, rest.2.2)
      else (1, [], .error (finalThrow (some stored)))

/-- patchedSignAndSendTransaction from usePatchedWallet.ts, with the
    remote operation abstracted as the per-attempt settlement op. -/
def patchedSignAndSendTransaction (op : Nat → Outcome) :
    Nat × List Nat × Except String JsonValue :=
  runAttempts op MAX_RETRIES 1 none

-- ===========================================================================
-- usePatchedWallet.ts: patchedSignMessage
-- ===========================================================================

/-- The result record of the remote signMessage operation. -/
structure SignMessageResult where
  signature : String
  signedPayload : String

/-- patchedSignMessage from usePatchedWallet.ts.  The argument result is
    the settlement of the single remote signMessage call; the browser
    base64 codec (atob with char codes, and btoa) is abstracted as the
    decode and encode parameters, decode returning none when atob throws,
    in which case the catch block falls back to the original result.  The
    leading 1 records that the remote operation is invoked exactly once:
    the body is straight line code with no retry loop. -/
def patchedSignMessage (decode : String → Option (List Nat))
    (encode : List Nat → String) (result : SignMessageResult) :
    Nat × SignMessageResult :=
  (1,
    match decode result.signature with
    | none => result
    | some sigBytes =>
      if isHighS sigBytes then
        { signature := encode (normalizeSignature sigBytes),
          signedPayload := result.signedPayload }
      else result)

-- ===========================================================================
-- Concrete example strings used by witnesses
-- ===========================================================================

/-- A sample signature text. -/
def EX_SIG : String := "abc"

/-- A sample non rate limit failure message. -/
def EX_PLAIN_FAIL : String := "boom"

/-- A sample string form of a non-Error rejection value; its text contains
    rate limit markers on purpose. -/
def EX_NONERROR_TEXT : String := "429 rate limit"

/-- A sample re-encoded signature text. -/
def EX_ENCODED : String := "enc"

/-- A sample wire text of a remote signature. -/
def EX_WIRE : String := "wire"

/-- A sample signed payload text. -/
def EX_PAYLOAD : String := "payload"

-- ===========================================================================
-- Arithmetic facts about the constants and the byte conversions
-- ===========================================================================

/-- The P-256 curve order is odd: n = 2 * (n / 2) + 1. -/
theorem curve_order_odd : CURVE_ORDER = 2 * HALF_CURVE_ORDER + 1 := by decide

/-- The P-256 curve order fits in 32 bytes. -/
theorem curve_order_lt_pow : CURVE_ORDER < 256 ^ 32 := by decide

/-- bigIntToBytes always produces exactly the requested number of bytes. -/
theorem bigIntToBytes_length (value : Int) (length : Nat) :
    (bigIntToBytes value length).length = length := by
  induction length generalizing value with
  | zero => rfl
  | succ n ih => simp [bigIntToBytes, ih]

/-- Decoding a list with one byte appended multiplies the prefix value by
    256 and adds the final byte. -/
theorem bytesToBigInt_snoc (bytes : List Nat) (b : Nat) :
    bytesToBigInt (bytes ++ [b]) = bytesToBigInt bytes * 256 + b := by
  simp [bytesToBigInt, List.foldl_append]

/-- Round trip: encoding a nonnegative value that fits in the requested
    width and decoding it again gives the value back. -/
theorem bytesToBigInt_bigIntToBytes (length : Nat) (value : Int)
    (h0 : 0 ≤ value) (h1 : value < 256 ^ length) :
    (bytesToBigInt (bigIntToBytes value length) : Int) = value := by
  induction length generalizing value with
  | zero =>
    simp [bigIntToBytes, bytesToBigInt] at h1 ⊢
    omega
  | succ n ih =>
    have hpow : (256 : Int) ^ (n + 1) = 256 * 256 ^ n := by ring
    have hdiv0 : 0 ≤ value / 256 := by omega
    have hdivlt : value / 256 < 256 ^ n := by omega
    have hrec := ih (value / 256) hdiv0 hdivlt
    rw [bigIntToBytes, bytesToBigInt_snoc]
    push_cast
    omega

/-- On a 64-byte input the s component decoded by the patch functions is
    the decoding of the suffix starting at byte 32. -/
theorem normalizeSignature_low (x : List Nat) (hlen : x.length = 64)
    (hlow : ¬ HALF_CURVE_ORDER < bytesToBigInt (x.drop 32)) :
    normalizeSignature x = x := by
  simp [normalizeSignature, hlen, hlow]

/-- On a 64-byte input whose decoded s exceeds half the curve order,
    normalizeSignature keeps r and re-encodes CURVE_ORDER - s. -/
theorem normalizeSignature_high (x : List Nat) (hlen : x.length = 64)
    (hhigh : HALF_CURVE_ORDER < bytesToBigInt (x.drop 32)) :
    normalizeSignature x =
      x.take 32 ++
        bigIntToBytes ((CURVE_ORDER : Int) - (bytesToBigInt (x.drop 32) : Int)) 32 := by
  simp [normalizeSignature, hlen, hhigh]

/-- The high-S branch output has length 64 and its s component decodes to
    CURVE_ORDER - s whenever s is between HALF_CURVE_ORDER and CURVE_ORDER. -/
theorem normalizeSignature_high_decode (x : List Nat) (hlen : x.length = 64)
    (hhigh : HALF_CURVE_ORDER < bytesToBigInt (x.drop 32))
    (hle : bytesToBigInt (x.drop 32) ≤ CURVE_ORDER) :
    (normalizeSignature x).length = 64 ∧
      bytesToBigInt ((normalizeSignature x).drop 32) =
        CURVE_ORDER - bytesToBigInt (x.drop 32) := by
  have htake : (x.take 32).length = 32 := by
    simp [List.length_take, hlen]
  rw [normalizeSignature_high x hlen hhigh]
  set s := bytesToBigInt (x.drop 32) with hs
  have hv0 : (0 : Int) ≤ (CURVE_ORDER : Int) - (s : Int) := by omega
  have hv1 : (CURVE_ORDER : Int) - (s : Int) < 256 ^ 32 := by
    have := curve_order_lt_pow
    push_cast
    omega
  have hrt := bytesToBigInt_bigIntToBytes 32 ((CURVE_ORDER : Int) - (s : Int)) hv0 hv1
  have hdrop :
      (x.take 32 ++ bigIntToBytes ((CURVE_ORDER : Int) - (s : Int)) 32).drop 32 =
        bigIntToBytes ((CURVE_ORDER : Int) - (s : Int)) 32 :=
    List.drop_left' htake
  constructor
  · simp [htake, bigIntToBytes_length]
  · rw [hdrop]
    omega

-- ===========================================================================
-- Claims about the signature canonicalizer
-- ===========================================================================

/-- Claim C1: for every 64-byte input whose trailing 32 bytes decode to an
    integer s with 0 < s < n (n the P-256 curve order), applying isHighS to
    the output of normalizeSignature yields false. -/
theorem isHighS_normalizeSignature_eq_false (x : List Nat) (hlen : x.length = 64)
    (h0 : 0 < bytesToBigInt (x.drop 32))
    (hn : bytesToBigInt (x.drop 32) < CURVE_ORDER) :
    isHighS (normalizeSignature x) = false := by
  by_cases hhigh : HALF_CURVE_ORDER < bytesToBigInt (x.drop 32)
  · obtain ⟨hlen2, hdec⟩ :=
      normalizeSignature_high_decode x hlen hhigh (Nat.le_of_lt hn)
    have hodd := curve_order_odd
    simp [isHighS, hlen2, hdec]
    omega
  · rw [normalizeSignature_low x hlen hhigh]
    simp [isHighS, hlen]
    omega

/-- Witness for C1 at the concrete 64-byte input with s = 1. -/
theorem isHighS_normalizeSignature_eq_false_witness :
    (List.replicate 63 0 ++ [1] : List Nat).length = 64 ∧
      isHighS (normalizeSignature (List.replicate 63 0 ++ [1])) = false :=
  ⟨by decide,
    isHighS_normalizeSignature_eq_false (List.replicate 63 0 ++ [1])
      (by decide) (by decide) (by decide)⟩

/-- Claim C2, counterexample: normalizeSignature is not idempotent on the
    64-byte input whose s component is 32 bytes of 0xff (its decoded s
    exceeds the curve order, so the re-encoded CURVE_ORDER - s is negative
    and wraps modulo 2 to the power 256; a second application undoes it). -/
theorem normalizeSignature_not_idempotent :
    (List.replicate 32 0 ++ List.replicate 32 255 : List Nat).length = 64 ∧
      normalizeSignature
          (normalizeSignature (List.replicate 32 0 ++ List.replicate 32 255)) ≠
        normalizeSignature (List.replicate 32 0 ++ List.replicate 32 255) := by
  decide

/-- Claim C2 as amended: normalizeSignature is idempotent on every 64-byte
    input whose trailing 32 bytes decode to s with s at most the curve
    order (the unrestricted claim fails exactly when s exceeds the curve
    order). -/
theorem normalizeSignature_idempotent (x : List Nat) (hlen : x.length = 64)
    (hle : bytesToBigInt (x.drop 32) ≤ CURVE_ORDER) :
    normalizeSignature (normalizeSignature x) = normalizeSignature x := by
  by_cases hhigh : HALF_CURVE_ORDER < bytesToBigInt (x.drop 32)
  · obtain ⟨hlen2, hdec⟩ := normalizeSignature_high_decode x hlen hhigh hle
    have hodd := curve_order_odd
    apply normalizeSignature_low _ hlen2
    omega
  · rw [normalizeSignature_low x hlen hhigh, normalizeSignature_low x hlen hhigh]

/-- Witness for the amended C2 at the concrete 64-byte input of all bytes 1. -/
theorem normalizeSignature_idempotent_witness :
    (List.replicate 64 1 : List Nat).length = 64 ∧
      normalizeSignature (normalizeSignature (List.replicate 64 1)) =
        normalizeSignature (List.replicate 64 1) :=
  ⟨by decide,
    normalizeSignature_idempotent (List.replicate 64 1) (by decide) (by decide)⟩

/-- Claim C3, counterexample: the all-zero 64-byte input is returned
    unchanged by normalizeSignature (its s is zero, not high), and the
    result fails isValidLowS because s = 0 is not positive. -/
theorem isValidLowS_normalizeSignature_fails_at_zero :
    (List.replicate 64 0 : List Nat).length = 64 ∧
      isValidLowS (normalizeSignature (List.replicate 64 0)) = false := by
  decide

/-- Claim C3 as amended: for every 64-byte input whose trailing 32 bytes
    decode to s with 0 < s < n, the output of normalizeSignature satisfies
    isValidLowS (the unrestricted claim fails at s = 0 and for s at least
    the curve order). -/
theorem isValidLowS_normalizeSignature (x : List Nat) (hlen : x.length = 64)
    (h0 : 0 < bytesToBigInt (x.drop 32))
    (hn : bytesToBigInt (x.drop 32) < CURVE_ORDER) :
    isValidLowS (normalizeSignature x) = true := by
  by_cases hhigh : HALF_CURVE_ORDER < bytesToBigInt (x.drop 32)
  · obtain ⟨hlen2, hdec⟩ :=
      normalizeSignature_high_decode x hlen hhigh (Nat.le_of_lt hn)
    have hodd := curve_order_odd
    simp [isValidLowS, hlen2, hdec]
    omega
  · rw [normalizeSignature_low x hlen hhigh]
    simp [isValidLowS, hlen]
    omega

/-- Witness for the amended C3 at the concrete 64-byte input with s = 2. -/
theorem isValidLowS_normalizeSignature_witness :
    (List.replicate 63 0 ++ [2] : List Nat).length = 64 ∧
      isValidLowS (normalizeSignature (List.replicate 63 0 ++ [2])) = true :=
  ⟨by decide,
    isValidLowS_normalizeSignature (List.replicate 63 0 ++ [2])
      (by decide) (by decide) (by decide)⟩

/-- Claim C7, counterexample: the bound s > n / 2 alone does not give
    0 < n - s; at s = n the hypothesis holds but the reduced value is 0. -/
theorem reduced_s_claim_fails_at_order :
    (HALF_CURVE_ORDER : Int) < (CURVE_ORDER : Int) ∧
      ¬ (0 < (CURVE_ORDER : Int) - (CURVE_ORDER : Int)) := by
  decide

/-- Claim C7 as amended: for every integer s with n / 2 < s < n, the
    reduced value n - s computed over the P-256 order constant satisfies
    0 < n - s and n - s is at most n / 2 (the unrestricted claim fails at
    s = n, where n - s = 0). -/
theorem reduced_s_bounds (s : Int) (h1 : (HALF_CURVE_ORDER : Int) < s)
    (h2 : s < (CURVE_ORDER : Int)) :
    0 < (CURVE_ORDER : Int) - s ∧
      (CURVE_ORDER : Int) - s ≤ (HALF_CURVE_ORDER : Int) := by
  have hodd := curve_order_odd
  omega

/-- Witness for the amended C7 at s = HALF_CURVE_ORDER + 1. -/
theorem reduced_s_bounds_witness :
    0 < (CURVE_ORDER : Int) - ((HALF_CURVE_ORDER : Int) + 1) ∧
      (CURVE_ORDER : Int) - ((HALF_CURVE_ORDER : Int) + 1) ≤ (HALF_CURVE_ORDER : Int) :=
  reduced_s_bounds ((HALF_CURVE_ORDER : Int) + 1) (by decide) (by decide)

/-- Claim C8: normalizeSignature returns any input whose length is not 64
    unchanged; the function is total, so no error is possible. -/
theorem normalizeSignature_length_passthrough (x : List Nat)
    (h : x.length ≠ 64) : normalizeSignature x = x := by
  simp [normalizeSignature, h]

/-- Witness for C8 at the one-byte input. -/
theorem normalizeSignature_length_passthrough_witness :
    ([0] : List Nat).length ≠ 64 ∧ normalizeSignature [0] = [0] :=
  ⟨by decide, normalizeSignature_length_passthrough [0] (by decide)⟩

-- ===========================================================================
-- Stepping lemmas for the retry loop
-- ===========================================================================

/-- One rejected rate limited attempt below the retry bound prepends its
    backoff delay and one invocation, then continues. -/
theorem run_continue (op : Nat → Outcome) (fuel attempt : Nat)
    (last : Option String) (m : String)
    (hres : attemptResult (op attempt) = .error (.errObj m))
    (h429 : is429Message m = true) (hlt : attempt < MAX_RETRIES) :
    runAttempts op (fuel + 1) attempt last =
      ((runAttempts op fuel (attempt + 1) (some m)).1 + 1,
        BASE_DELAY_MS * 2 ^ (attempt - 1) ::
          (runAttempts op fuel (attempt + 1) (some m)).2.1,
        (runAttempts op fuel (attempt + 1) (some m)).2.2) := by
  rw [runAttempts, hres]
  simp [toStoredError, is429Error, h429, hlt]

/-- An attempt whose caught error is not retried stops the loop at once
    with the final throw over the stored error. -/
theorem run_stop (op : Nat → Outcome) (fuel attempt : Nat)
    (last : Option String) (e : JsErrorVal)
    (hres : attemptResult (op attempt) = .error e)
    (hstop : (is429Error e && decide (attempt < MAX_RETRIES)) = false) :
    runAttempts op (fuel + 1) attempt last =
      (1, [], .error (finalThrow (some (toStoredError e)))) := by
  rw [runAttempts, hres]
  simp [hstop]

/-- The extraction failure messages are never classified as rate limit
    conditions, so an extraction failure is never retried. -/
theorem regexFallback_error_not429 (str msg : String)
    (h : regexFallback str = .error msg) : is429Message msg = false := by
  unfold regexFallback at h
  split at h
  · exact absurd h (by simp)
  · have hmsg : msg = couldNotExtractMsg := by
      injection h with h2
      exact h2.symm
    rw [hmsg]
    decide

/-- Any error produced by extractSignature carries a message that the rate
    limit classifier rejects. -/
theorem extractSignature_error_not429 (v : JsonValue) (msg : String)
    (h : extractSignature v = .error msg) : is429Message msg = false := by
  cases v with
  | jstr s => exact absurd h (by simp [extractSignature])
  | jnum n =>
    have hmsg : msg = unexpectedNumberMsg := by
      simp [extractSignature] at h
      exact h.symm
    rw [hmsg]
    decide
  | jbool b =>
    have hmsg : msg = unexpectedBooleanMsg := by
      simp [extractSignature] at h
      exact h.symm
    rw [hmsg]
    decide
  | jnull =>
    have hmsg : msg = unexpectedObjectMsg := by
      simp [extractSignature] at h
      exact h.symm
    rw [hmsg]
    decide
  | jarr elems =>
    simp only [extractSignature] at h
    exact regexFallback_error_not429 _ _ h
  | jobj fields =>
    simp only [extractSignature] at h
    split at h
    · exact absurd h (by simp)
    · split at h
      · split at h
        · exact absurd h (by simp)
        · exact regexFallback_error_not429 _ _ h
      · exact regexFallback_error_not429 _ _ h

/-- When the signature field lookup does not produce a string, the object
    extraction falls through to the signatures rule and the scan rule. -/
theorem extractSignature_obj_fallthrough (fields : List (String × JsonValue))
    (hsig : ∀ t, lookupField fields signatureKey ≠ some (.jstr t)) :
    extractSignature (.jobj fields) =
      match lookupField fields signaturesKey with
      | some (.jarr sigs) =>
        match sigs.getLast? with
        | some v => .ok v
        | none => regexFallback (jsonStringify (.jobj fields))
      | _ => regexFallback (jsonStringify (.jobj fields)) := by
  simp only [extractSignature]

-- ===========================================================================
-- Claims about the resilient invocation wrapper
-- ===========================================================================

/-- Claim C4: if every attempt rejects with an Error whose message the
    classifier marks as a rate limit condition, the wrapper invokes the
    operation exactly MAX_RETRIES = 3 times, sleeps BASE_DELAY_MS times 2
    to the power n - 1 before attempt n + 1, and finally throws the
    distinguished rate limit error naming the last underlying message. -/
theorem retry_bound_on_rate_limit (op : Nat → Outcome) (msgs : Nat → String)
    (hrej : ∀ n, op n = .reject (.errObj (msgs n)))
    (h429 : ∀ n, is429Message (msgs n) = true) :
    patchedSignAndSendTransaction op =
      (3, [BASE_DELAY_MS * 2 ^ 0, BASE_DELAY_MS * 2 ^ 1],
        .error (rateLimitWrapMsg (msgs 3))) := by
  have e1 := run_continue op 2 1 none (msgs 1)
    (by rw [hrej 1]; rfl) (h429 1) (by decide)
  have e2 := run_continue op 1 2 (some (msgs 1)) (msgs 2)
    (by rw [hrej 2]; rfl) (h429 2) (by decide)
  have e3 := run_stop op 0 3 (some (msgs 2)) (.errObj (msgs 3))
    (by rw [hrej 3]; rfl) (by simp [is429Error, h429 3, MAX_RETRIES])
  have hne : msgs 3 ≠ "" := by
    intro hemp
    have h3 := h429 3
    rw [hemp] at h3
    exact absurd h3 (by decide)
  have hf : finalThrow (some (toStoredError (.errObj (msgs 3)))) =
      rateLimitWrapMsg (msgs 3) := by
    simp [finalThrow, toStoredError, h429 3, hne]
  show runAttempts op (2 + 1) 1 none = _
  rw [e1]
  norm_num
  rw [e2, e3, hf]
  norm_num

/-- Witness for C4: every attempt rejects with an Error whose message is
    the 429 marker itself. -/
theorem retry_bound_on_rate_limit_witness :
    patchedSignAndSendTransaction (fun _ => .reject (.errObj MARKER_429)) =
      (3, [BASE_DELAY_MS * 2 ^ 0, BASE_DELAY_MS * 2 ^ 1],
        .error (rateLimitWrapMsg MARKER_429)) := by
  have h : is429Message MARKER_429 = true := by decide
  exact retry_bound_on_rate_limit (fun _ => .reject (.errObj MARKER_429))
    (fun _ => MARKER_429) (fun _ => rfl) (fun _ => h)

/-- Claim C5: the extraction precedence on a successful settle.  A plain
    string is returned directly; else an object with a string valued
    signature field yields that field; else an object with a non-empty
    signatures string array yields its last element; else the first base58
    token of length 87 or 88 in the JSON serialization; with no match the
    extraction Error is thrown and that failure is terminal, never
    retried: one invocation and the extraction message is thrown. -/
theorem extractSignature_precedence :
    (∀ s, extractSignature (.jstr s) = .ok (.jstr s)) ∧
    (∀ fields s, lookupField fields signatureKey = some (.jstr s) →
      extractSignature (.jobj fields) = .ok (.jstr s)) ∧
    (∀ fields sigs v,
      (∀ t, lookupField fields signatureKey ≠ some (.jstr t)) →
      lookupField fields signaturesKey = some (.jarr sigs) →
      (∀ u, u ∈ sigs → ∃ t, u = JsonValue.jstr t) →
      sigs.getLast? = some v →
      extractSignature (.jobj fields) = .ok v) ∧
    (∀ fields,
      (∀ t, lookupField fields signatureKey ≠ some (.jstr t)) →
      (∀ l, lookupField fields signaturesKey = some (.jarr l) → l = []) →
      extractSignature (.jobj fields) =
        regexFallback (jsonStringify (.jobj fields))) ∧
    (∀ str m, firstBase58Match str = some m →
      regexFallback str = .ok (.jstr m)) ∧
    (∀ str, firstBase58Match str = none →
      regexFallback str = .error couldNotExtractMsg) ∧
    (∀ op v msg, op 1 = .resolve v → extractSignature v = .error msg →
      patchedSignAndSendTransaction op = (1, [], .error msg)) := by
  refine ⟨fun s => rfl, ?_, ?_, ?_, ?_, ?_, ?_⟩
  · intro fields s hl
    simp [extractSignature, hl]
  · intro fields sigs v hsig hsigs hstr hlast
    rw [extractSignature_obj_fallthrough fields hsig, hsigs]
    simp [hlast]
  · intro fields hsig hsigs
    rw [extractSignature_obj_fallthrough fields hsig]
    cases h2 : lookupField fields signaturesKey with
    | none => rfl
    | some val =>
      cases val with
      | jstr t => rfl
      | jnum n => rfl
      | jbool b => rfl
      | jnull => rfl
      | jobj fs => rfl
      | jarr l =>
        have hnil : l = [] := hsigs l h2
        subst hnil
        rfl
  · intro str m hm
    simp [regexFallback, hm]
  · intro str hm
    simp [regexFallback, hm]
  · intro op v msg hop hex
    have hres : attemptResult (op 1) = .error (.errObj msg) := by
      rw [hop]
      simp [attemptResult, hex]
    have h429f : is429Message msg = false := extractSignature_error_not429 v msg hex
    show runAttempts op (2 + 1) 1 none = _
    rw [run_stop op 2 1 none (.errObj msg) hres (by simp [is429Error, h429f])]
    simp [finalThrow, toStoredError, h429f]

/-- Witness for C5: an object with a string valued signature field. -/
theorem extractSignature_precedence_witness :
    extractSignature (.jobj [(signatureKey, .jstr EX_SIG)]) = .ok (.jstr EX_SIG) :=
  extractSignature_precedence.2.1 [(signatureKey, .jstr EX_SIG)] EX_SIG
    (by simp [lookupField])

/-- Claim C6: a rejection with an Error not classified as a rate limit
    condition stops the wrapper after exactly one invocation, and the
    original Error (its message) is thrown unchanged. -/
theorem non_rate_limit_single_attempt (op : Nat → Outcome) (m : String)
    (hrej : op 1 = .reject (.errObj m)) (h429 : is429Message m = false) :
    patchedSignAndSendTransaction op = (1, [], .error m) := by
  show runAttempts op (2 + 1) 1 none = _
  rw [run_stop op 2 1 none (.errObj m) (by rw [hrej]; rfl)
    (by simp [is429Error, h429])]
  simp [finalThrow, toStoredError, h429]

/-- Witness for C6 rejecting once with a boring Error. -/
theorem non_rate_limit_single_attempt_witness :
    patchedSignAndSendTransaction (fun _ => .reject (.errObj EX_PLAIN_FAIL)) =
      (1, [], .error EX_PLAIN_FAIL) :=
  non_rate_limit_single_attempt (fun _ => .reject (.errObj EX_PLAIN_FAIL))
    EX_PLAIN_FAIL rfl (by decide)

/-- Claim C10: a rejection value that is not an Error instance is never
    classified as a rate limit condition, whatever its text, so the
    wrapper performs exactly one invocation and throws terminally. -/
theorem non_error_rejection_single_attempt (op : Nat → Outcome) (s : String)
    (hrej : op 1 = .reject (.nonError s)) :
    is429Error (.nonError s) = false ∧
      (patchedSignAndSendTransaction op).1 = 1 ∧
      ∃ m, (patchedSignAndSendTransaction op).2.2 = .error m := by
  have hstep : patchedSignAndSendTransaction op =
      (1, [], .error (finalThrow (some (toStoredError (.nonError s))))) := by
    show runAttempts op (2 + 1) 1 none = _
    rw [run_stop op 2 1 none (.nonError s) (by rw [hrej]; rfl)
      (by simp [is429Error])]
  exact ⟨rfl, by rw [hstep],
    ⟨finalThrow (some (toStoredError (.nonError s))), by rw [hstep]⟩⟩

/-- Witness for C10: the rejection is a plain string whose text holds rate
    limit markers, yet the wrapper still stops after one invocation. -/
theorem non_error_rejection_single_attempt_witness :
    is429Error (.nonError EX_NONERROR_TEXT) = false ∧
      (patchedSignAndSendTransaction
        (fun _ => .reject (.nonError EX_NONERROR_TEXT))).1 = 1 ∧
      ∃ m, (patchedSignAndSendTransaction
        (fun _ => .reject (.nonError EX_NONERROR_TEXT))).2.2 = .error m :=
  non_error_rejection_single_attempt
    (fun _ => .reject (.nonError EX_NONERROR_TEXT)) EX_NONERROR_TEXT rfl

/-- Claim C9: the message signing entry point calls the remote operation
    once (first component 1); when the returned signature decodes to a
    64-byte high-S signature, the returned record carries the re-encoding
    of normalizeSignature of the decoded bytes with signedPayload
    unchanged, and when the decoded signature is not high-S the remote
    result is returned unchanged. -/
theorem patchedSignMessage_normalizes (decode : String → Option (List Nat))
    (encode : List Nat → String) (result : SignMessageResult)
    (bs : List Nat) (hdec : decode result.signature = some bs) :
    (patchedSignMessage decode encode result).1 = 1 ∧
      (isHighS bs = true →
        (patchedSignMessage decode encode result).2 =
          { signature := encode (normalizeSignature bs),
            signedPayload := result.signedPayload }) ∧
      (isHighS bs = false →
        (patchedSignMessage decode encode result).2 = result) := by
  refine ⟨rfl, ?_, ?_⟩ <;> intro h <;> simp [patchedSignMessage, hdec, h]

/-- Witness for C9: the decoded signature is 64 bytes of 0xff, which is
    high-S, so the re-encoded normalization is returned. -/
theorem patchedSignMessage_normalizes_witness :
    (patchedSignMessage (fun _ => some (List.replicate 64 255))
        (fun _ => EX_ENCODED) ⟨EX_WIRE, EX_PAYLOAD⟩).2 =
      { signature := EX_ENCODED, signedPayload := EX_PAYLOAD } :=
  (patchedSignMessage_normalizes (fun _ => some (List.replicate 64 255))
    (fun _ => EX_ENCODED) ⟨EX_WIRE, EX_PAYLOAD⟩ (List.replicate 64 255)
    rfl).2.1 (by decide)
